import Mathlib

/-!
Shallow embedding of `orbit3d.py` (an N-body gravity simulator) in Lean 4,
together with theorems checking the specification's claims against the code.

Real-valued quantities are modelled by `ℚ` (exact arithmetic); division by
zero yields `0` as usual in Lean.  NumPy row vectors of length 3 become the
structure `Vec3`; `n × 3` arrays become `List Vec3`; the `2 × 6` per-body
history array `last_values` becomes two `Vec3 × Vec3` slots.
-/

/-- A 3-component vector of rationals, modelling a NumPy length-3 row. -/
structure Vec3 where
  x : ℚ
  y : ℚ
  z : ℚ
deriving DecidableEq, Repr

namespace Vec3

instance : Zero Vec3 := ⟨⟨0, 0, 0⟩⟩

instance : Add Vec3 := ⟨fun a b => ⟨a.x + b.x, a.y + b.y, a.z + b.z⟩⟩

instance : Neg Vec3 := ⟨fun a => ⟨-a.x, -a.y, -a.z⟩⟩

instance : Sub Vec3 := ⟨fun a b => ⟨a.x - b.x, a.y - b.y, a.z - b.z⟩⟩

instance : SMul ℚ Vec3 := ⟨fun c a => ⟨c * a.x, c * a.y, c * a.z⟩⟩

instance : AddCommMonoid Vec3 where
  add_assoc a b c := by
    obtain ⟨ax, ay, az⟩ := a
    obtain ⟨bx, by', bz⟩ := b
    obtain ⟨cx, cy, cz⟩ := c
    show Vec3.mk (ax + bx + cx) (ay + by' + cy) (az + bz + cz) =
      Vec3.mk (ax + (bx + cx)) (ay + (by' + cy)) (az + (bz + cz))
    simp only [Vec3.mk.injEq]
    refine ⟨?_, ?_, ?_⟩ <;> ring
  zero_add a := by
    obtain ⟨ax, ay, az⟩ := a
    show Vec3.mk (0 + ax) (0 + ay) (0 + az) = Vec3.mk ax ay az
    simp only [Vec3.mk.injEq]
    refine ⟨?_, ?_, ?_⟩ <;> ring
  add_zero a := by
    obtain ⟨ax, ay, az⟩ := a
    show Vec3.mk (ax + 0) (ay + 0) (az + 0) = Vec3.mk ax ay az
    simp only [Vec3.mk.injEq]
    refine ⟨?_, ?_, ?_⟩ <;> ring
  add_comm a b := by
    obtain ⟨ax, ay, az⟩ := a
    obtain ⟨bx, by', bz⟩ := b
    show Vec3.mk (ax + bx) (ay + by') (az + bz) = Vec3.mk (bx + ax) (by' + ay) (bz + az)
    simp only [Vec3.mk.injEq]
    refine ⟨?_, ?_, ?_⟩ <;> ring
  nsmul := nsmulRec

end Vec3

/-- Gravitational constant `g = 6.67259e-11` from `System.force_matrix.force`. -/
def grav : ℚ := 667259 / 10 ^ 16

/-- One celestial body (`class Body`), all scalar fields from `Body.__init__`.
The `2 × 6` NumPy history array `last_values` is modelled as the two
position/velocity slots `last0` and `last1`, both initially zero. -/
structure Body where
  name : String
  GM : ℚ
  mass : ℚ
  x0 : ℚ
  y0 : ℚ
  z0 : ℚ
  x : ℚ
  y : ℚ
  z : ℚ
  vx0 : ℚ
  vy0 : ℚ
  vz0 : ℚ
  vx : ℚ
  vy : ℚ
  vz : ℚ
  radius : ℚ
  last0 : Vec3 × Vec3
  last1 : Vec3 × Vec3
  iter : ℕ
deriving DecidableEq, Repr

namespace Body

/-- Embeds `Body.__init__(name, x0, y0, z0, vx0, vy0, vz0, mass, gm, radius)`:
stores every argument; position and velocity start at the initial sample;
the history array starts as zeros; no validation of any kind is performed. -/
def init (name : String) (x0 y0 z0 vx0 vy0 vz0 mass gm radius : ℚ) : Body :=
  { name := name
    GM := gm
    mass := mass
    x0 := x0, y0 := y0, z0 := z0
    x := x0, y := y0, z := z0
    vx0 := vx0, vy0 := vy0, vz0 := vz0
    vx := vx0, vy := vy0, vz := vz0
    radius := radius
    last0 := (0, 0)
    last1 := (0, 0)
    iter := 0 }

/-- Embeds `Body.compute_acceleration`: `force / self.mass`, componentwise. -/
def compute_acceleration (b : Body) (force : Vec3) : Vec3 :=
  ⟨force.x / b.mass, force.y / b.mass, force.z / b.mass⟩

/-- Embeds `Body.get_position`. -/
def get_position (b : Body) : Vec3 := ⟨b.x, b.y, b.z⟩

/-- Embeds `Body.get_velocity`. -/
def get_velocity (b : Body) : Vec3 := ⟨b.vx, b.vy, b.vz⟩

/-- Embeds `Body.set_position`. -/
def set_position (b : Body) (x y z : ℚ) : Body := { b with x := x, y := y, z := z }

/-- Embeds `Body.set_velocity`. -/
def set_velocity (b : Body) (vx vy vz : ℚ) : Body := { b with vx := vx, vy := vy, vz := vz }

/-- Embeds `Body.set_integration_result(pos, result)`: overwrite history slot `pos`. -/
def set_integration_result (b : Body) (pos : Fin 2) (result : Vec3 × Vec3) : Body :=
  if pos = 0 then { b with last0 := result } else { b with last1 := result }

/-- Embeds `Body.get_integration_result(pos)`: read history slot `pos`. -/
def get_integration_result (b : Body) (pos : Fin 2) : Vec3 × Vec3 :=
  if pos = 0 then b.last0 else b.last1

/-- Embeds `Body.ke`: `0.5 * mass * (vx² + vy² + vz²)`. -/
def ke (b : Body) : ℚ := 1 / 2 * b.mass * (b.vx ^ 2 + b.vy ^ 2 + b.vz ^ 2)

end Body

/-- One component of the pairwise force, embedding the arithmetic of the inner
function `force` in `System.force_matrix`.  NOTE: the source computes
`dist = np.abs(r12)`, which is the componentwise absolute value, not the
Euclidean norm, and divides componentwise, so each component only depends on
the matching component of `r12`. -/
def forceComp (m1 m2 rc : ℚ) : ℚ :=
  -grav * m1 * m2 / |rc| ^ 2 * (rc / |rc|)

/-- The inner function `force(body1, body2)` of `System.force_matrix`:
the force on `body2` exerted by `body1`.  If the two positions are equal
(`np.array_equal`) the result is the zero vector; otherwise the formula
`-g * m1 * m2 / dist**2 * r12_hat` is applied with `dist = np.abs(r12)`
taken componentwise, exactly as NumPy broadcasting does. -/
def force (body1 body2 : Body) : Vec3 :=
  let pos1 := body1.get_position
  let pos2 := body2.get_position
  if pos2 = pos1 then 0
  else
    ⟨forceComp body1.mass body2.mass (pos2.x - pos1.x),
     forceComp body1.mass body2.mass (pos2.y - pos1.y),
     forceComp body1.mass body2.mass (pos2.z - pos1.z)⟩

/-- The aggregate `class System`, owning its list of bodies. -/
structure System where
  bodies : List Body
deriving DecidableEq, Repr

namespace System

/-- Embeds `self.n = len(names)`: the number of bodies. -/
def n (sys : System) : ℕ := sys.bodies.length

/-- Embeds `System.get_positions`: the `n × 3` array of current positions. -/
def get_positions (sys : System) : List Vec3 := sys.bodies.map Body.get_position

/-- Embeds `System.get_velocities`: the `n × 3` array of current velocities. -/
def get_velocities (sys : System) : List Vec3 := sys.bodies.map Body.get_velocity

/-- Entry `(i, j)` of the `n × n × 3` array built by `System.force_matrix`. -/
def force_matrix (sys : System) (i j : Fin sys.n) : Vec3 :=
  force (sys.bodies.get i) (sys.bodies.get j)

/-- Row `i` of `np.sum(self.force_matrix(), axis=1)` in `System.get_accelerations`
(the sum over the second index `j` of `F[i][j]`), expressed directly through the
body at index `i`: the sum over all bodies `b2` of `force b b2`. -/
def resforce (sys : System) (b : Body) : Vec3 :=
  (sys.bodies.map (fun b2 => force b b2)).sum

/-- Embeds `System.get_accelerations`: each body's `compute_acceleration` applied to its
row of `np.sum(force_matrix, axis=1)`. -/
def get_accelerations (sys : System) : List Vec3 :=
  sys.bodies.map (fun b => b.compute_acceleration (sys.resforce b))

/-- Embeds `System.get_integration_results(pos)`: the `n × 6` array of slot `pos` of every
body, as a list of position/velocity pairs. -/
def get_integration_results (sys : System) (pos : Fin 2) : List (Vec3 × Vec3) :=
  sys.bodies.map (fun b => b.get_integration_result pos)

/-- Embeds `System.set_integration_results(pos, res_pos, res_vel)`: concatenates the two
`n × 3` arrays row by row and stores each row into slot `pos` of the matching body. -/
def set_integration_results (sys : System) (pos : Fin 2) (res_pos res_vel : List Vec3) :
    System :=
  ⟨List.zipWith (fun b pv => b.set_integration_result pos pv) sys.bodies
    (res_pos.zip res_vel)⟩

/-- Embeds `System.set_positions(pos)`: `set_position(*pos[i])` on each body. -/
def set_positions (sys : System) (pos : List Vec3) : System :=
  ⟨List.zipWith (fun b p => b.set_position p.x p.y p.z) sys.bodies pos⟩

/-- Embeds `System.set_velocities(vel)`: as written in the source, this calls
`set_position(*vel[i])` on each body (not `set_velocity`). -/
def set_velocities (sys : System) (vel : List Vec3) : System :=
  ⟨List.zipWith (fun b v => b.set_position v.x v.y v.z) sys.bodies vel⟩

end System

/-- Resultant force on body `k` as the specification's words describe it
(claim C1): the sum of `F[i][k]` over the first index `i` with the second
index fixed at `k`.  This definition follows the spec, not the source, and
exists to be compared against `System.get_accelerations`. -/
def specResultantForce (sys : System) (k : Fin sys.n) : Vec3 :=
  ∑ i : Fin sys.n, sys.force_matrix i k

/-- Embeds `class Trajectory`: one `n_coords × 3` buffer per body plus a row counter.
The field `n_trajectories` of the source always equals the length of the buffer
list (it is set only in the constructor), so it is represented by
`trajectories.length`. -/
structure Trajectory where
  trajectories : List (List Vec3)
  row_counter : ℕ
deriving DecidableEq, Repr

namespace Trajectory

/-- Embeds `Trajectory.__init__(n_trajectories, n_coords)`: `n_trajectories` zero
buffers of `n_coords` rows each, and a zero row counter. -/
def init (n_trajectories n_coords : ℕ) : Trajectory :=
  ⟨List.replicate n_trajectories (List.replicate n_coords 0), 0⟩

/-- Bounds-checked write of row `r` of one buffer, modelling the NumPy row
assignment `buf[r] = v`, which raises IndexError when `r` is out of range. -/
def setRow (l : List Vec3) (r : ℕ) (v : Vec3) : Option (List Vec3) :=
  if r < l.length then some (l.set r v) else none

/-- The loop body of `Trajectory.set_trajectory_position`: writes row `r` of the
`i`-th buffer from `pos[i]` for each `i`; fails (IndexError) when a row index is
out of range or `pos` runs out of entries. -/
def setRows : List (List Vec3) → List Vec3 → ℕ → Option (List (List Vec3))
  | [], _, _ => some []
  | _ :: _, [], _ => none
  | t :: ts, p :: ps, r => do
      let t' ← setRow t r p
      let rest ← setRows ts ps r
      pure (t' :: rest)

/-- Embeds `Trajectory.set_trajectory_position(pos)`: writes row `row_counter` of every
buffer, then increments `row_counter`.  An out-of-range write raises before any
state is changed (the first buffer is the first one written). -/
def set_trajectory_position (tra : Trajectory) (pos : List Vec3) : Option Trajectory :=
  (setRows tra.trajectories pos tra.row_counter).map
    (fun ts => ⟨ts, tra.row_counter + 1⟩)

/-- Embeds `Trajectory.get_trajectory(i)`. -/
def get_trajectory (tra : Trajectory) (i : ℕ) : List Vec3 :=
  tra.trajectories.getD i []

end Trajectory

/-- Elementwise sum of two `n × 3` arrays. -/
def ladd (a b : List Vec3) : List Vec3 := List.zipWith (· + ·) a b

/-- Elementwise difference of two `n × 3` arrays. -/
def lsub (a b : List Vec3) : List Vec3 := List.zipWith (· - ·) a b

/-- Scalar multiple of an `n × 3` array. -/
def lsmul (c : ℚ) (a : List Vec3) : List Vec3 := a.map (fun v => c • v)

/-- The position columns `[:, 0:3]` of an `n × 6` slot array. -/
def posParts (l : List (Vec3 × Vec3)) : List Vec3 := l.map Prod.fst

/-- The velocity columns `[:, 3:6]` of an `n × 6` slot array. -/
def velParts (l : List (Vec3 × Vec3)) : List Vec3 := l.map Prod.snd

/-- The mutable state of the module-level Verlet loop: the `System` `sol` and the
`Trajectory` `tra`. -/
structure SimState where
  sol : System
  tra : Trajectory
deriving DecidableEq, Repr

/-- One iteration of the module-level Verlet loop at step `k`, with time step
`dt` and the initial velocity sample `p0 = sol.get_velocities()` taken before
the loop.  Returns `none` when the trajectory write raises. -/
def verletStep (dt : ℚ) (p0 : List Vec3) (k : ℕ) (st : SimState) : Option SimState :=
  if k = 0 then
    let q0 := st.sol.get_positions
    let sol1 := st.sol.set_integration_results 0 q0 p0
    (st.tra.set_trajectory_position q0).map (fun t => ⟨sol1, t⟩)
  else if k = 1 then
    let q0 := posParts (st.sol.get_integration_results 0)
    let A := st.sol.get_accelerations
    let q1 := ladd (ladd q0 (lsmul dt p0)) (lsmul (1 / 2 * dt ^ 2) A)
    let sol1 := (st.sol.set_integration_results 1 q1 p0).set_positions q1
    (st.tra.set_trajectory_position q1).map (fun t => ⟨sol1, t⟩)
  else if k % 2 = 0 then
    let A := st.sol.get_accelerations
    let qn1 := posParts (st.sol.get_integration_results 0)
    let qn := posParts (st.sol.get_integration_results 1)
    let qplus := ladd (lsub (lsmul 2 qn) qn1) (lsmul (dt ^ 2) A)
    let sol1 := (st.sol.set_integration_results 0 qplus p0).set_positions qplus
    (st.tra.set_trajectory_position qplus).map (fun t => ⟨sol1, t⟩)
  else
    let A := st.sol.get_accelerations
    let qn1 := posParts (st.sol.get_integration_results 1)
    let qn := posParts (st.sol.get_integration_results 0)
    let qplus := ladd (lsub (lsmul 2 qn) qn1) (lsmul (dt ^ 2) A)
    let sol1 := (st.sol.set_integration_results 1 qplus p0).set_positions qplus
    (st.tra.set_trajectory_position qplus).map (fun t => ⟨sol1, t⟩)

/-- Runs loop iterations `0, 1, ..., k-1` in order, propagating failure. -/
def runSteps (dt : ℚ) (p0 : List Vec3) : ℕ → SimState → Option SimState
  | 0, st => some st
  | k + 1, st => (runSteps dt p0 k st).bind (verletStep dt p0 k)

/-- Runs a list of `set_trajectory_position` calls in order (used to state the
trajectory append law). -/
def recordList (tra : Trajectory) : List (List Vec3) → Option Trajectory
  | [] => some tra
  | p :: ps => (tra.set_trajectory_position p).bind (fun t => recordList t ps)

/-- Claim C6's slot bookkeeping: the slot holding the older position for step
`k` (the one the `k % 2` branches of the loop read as `qn1` and overwrite). -/
def olderIdx (k : ℕ) : Fin 2 := if k % 2 = 0 then 0 else 1

/-- The slot holding the newer position for step `k` (read as `qn`). -/
def newerIdx (k : ℕ) : Fin 2 := if k % 2 = 0 then 1 else 0

/-- The Störmer update `2·q_n − q_{n-1} + A·dt²` for step `k` computed from the
pre-step state, with the slots selected by `k % 2`. -/
def qplusOf (dt : ℚ) (st : SimState) (k : ℕ) : List Vec3 :=
  ladd
    (lsub (lsmul 2 (posParts (st.sol.get_integration_results (newerIdx k))))
      (posParts (st.sol.get_integration_results (olderIdx k))))
    (lsmul (dt ^ 2) st.sol.get_accelerations)

/-- The bootstrap update `q0 + p0·dt + 0.5·A·dt²` of loop iteration 1, computed
from the pre-step state (`q0` read from history slot 0). -/
def q1Of (dt : ℚ) (p0 : List Vec3) (st : SimState) : List Vec3 :=
  ladd (ladd (posParts (st.sol.get_integration_results 0)) (lsmul dt p0))
    (lsmul (1 / 2 * dt ^ 2) st.sol.get_accelerations)

/-- The pairwise force as claim C2's words state it: `−G·m_i·m_j/dist² · r̂` with
`r̂ = r/dist`.  This follows the spec, not the source; the Euclidean norm `dist`
is passed explicitly (it is irrational in general, but rational at the inputs
used here). -/
def specForceEuclid (body1 body2 : Body) (dist : ℚ) : Vec3 :=
  (-(grav * body1.mass * body2.mass) / dist ^ 2) •
    ((1 / dist) • (body2.get_position - body1.get_position))

/-- Fixture: unit-mass body at the origin. -/
def bA : Body := Body.init "A" 0 0 0 0 0 0 1 0 0

/-- Fixture: unit-mass body at `(1, 0, 0)`. -/
def bB : Body := Body.init "B" 1 0 0 0 0 0 1 0 0

/-- Fixture: the two-body system `[bA, bB]`. -/
def sysAB : System := ⟨[bA, bB]⟩

/-- Index of `bB` in `sysAB`. -/
def idxB : Fin sysAB.n := ⟨1, by norm_num [sysAB, System.n]⟩

/-- Index of `bA` in `sysAB`. -/
def idxA : Fin sysAB.n := ⟨0, by norm_num [sysAB, System.n]⟩

/-- Fixture: unit-mass body at `(3, 4, 12)` (Euclidean distance 13 from the
origin). -/
def bQ : Body := Body.init "Q" 3 4 12 0 0 0 1 0 0

/-- Fixture: a one-body system whose body is at the origin with velocity
`(9, 9, 9)`. -/
def sysC3 : System := ⟨[Body.init "a" 0 0 0 9 9 9 1 0 0]⟩

/-- Fixture: a body constructed with mass `-1`. -/
def bodyC4 : Body := Body.init "neg" 0 0 0 0 0 0 (-1) 0 0

/-- Fixture: a `Trajectory` with zero bodies and zero capacity, so
`row_counter = n_rows = 0` from the start. -/
def traC5 : Trajectory := Trajectory.init 0 0

/-- The velocity components and the mass of a body — the part of a `Body` that
claim C7 asserts no integration step ever changes. -/
def velMassProj (b : Body) : ℚ × ℚ × ℚ × ℚ := (b.vx, b.vy, b.vz, b.mass)

/-- The history slot written by loop iteration `k`: slot 0 at `k = 0`, slot 1 at
`k = 1`, and the older slot (by parity) from `k = 2` on. -/
def writtenSlot (k : ℕ) : Fin 2 := if k = 0 then 0 else if k = 1 then 1 else olderIdx k

/-- Fixture: unit-mass body at rest at the origin. -/
def bW6 : Body := Body.init "w" 0 0 0 0 0 0 1 0 0

/-- Fixture: simulation state holding only `bW6` and a capacity-1 trajectory. -/
def stW6 : SimState := ⟨⟨[bW6]⟩, Trajectory.init 1 1⟩

/-- Fixture: the state produced by loop iteration 2 on `stW6` (everything stays
at the origin; the trajectory gains one row). -/
def stW6' : SimState := ⟨⟨[bW6]⟩, ⟨[[⟨0, 0, 0⟩]], 1⟩⟩

/-- Fixture: unit-mass body at the origin with velocity `(2, 0, 0)`. -/
def bW7 : Body := Body.init "v" 0 0 0 2 0 0 1 0 0

/-- Fixture: simulation state holding only `bW7` and a capacity-2 trajectory. -/
def stW7 : SimState := ⟨⟨[bW7]⟩, Trajectory.init 1 2⟩

/-- Fixture: the state after running loop iterations 0 and 1 on `stW7` with
`dt = 1`: the body drifts to `(2,0,0)`, both slots carry the initial velocity
sample `(2,0,0)`. -/
def stW7' : SimState :=
  ⟨⟨[{ bW7 with
       x := 2
       last0 := (⟨0, 0, 0⟩, ⟨2, 0, 0⟩)
       last1 := (⟨2, 0, 0⟩, ⟨2, 0, 0⟩) }]⟩,
   ⟨[[⟨0, 0, 0⟩, ⟨2, 0, 0⟩]], 2⟩⟩

/-- Fixture: unit-mass body at the origin with nonzero velocity `(1, 0, 0)`. -/
def bC10 : Body := Body.init "m" 0 0 0 1 0 0 1 0 0

/-- Fixture: simulation state holding only `bC10` and a capacity-2 trajectory. -/
def stC10 : SimState := ⟨⟨[bC10]⟩, Trajectory.init 1 2⟩

/-- Fixture: the state after running loop iterations 0 and 1 on `stC10` with
`dt = 1`: the single body has drifted to `(1, 0, 0)`. -/
def stC10' : SimState :=
  ⟨⟨[{ bC10 with
       x := 1
       last0 := (⟨0, 0, 0⟩, ⟨1, 0, 0⟩)
       last1 := (⟨1, 0, 0⟩, ⟨1, 0, 0⟩) }]⟩,
   ⟨[[⟨0, 0, 0⟩, ⟨1, 0, 0⟩]], 2⟩⟩

/-- Fixture: unit-mass body at rest at `(5, 0, 0)`. -/
def bW10 : Body := Body.init "r" 5 0 0 0 0 0 1 0 0

/-- Fixture: simulation state holding only `bW10` and a capacity-3 trajectory. -/
def stW10 : SimState := ⟨⟨[bW10]⟩, Trajectory.init 1 3⟩

/-- Fixture: the state after running loop iterations 0, 1 and 2 on `stW10` with
`dt = 1`: the body never moves; both slots hold its position and zero velocity. -/
def stW10' : SimState :=
  ⟨⟨[{ bW10 with
       last0 := (⟨5, 0, 0⟩, ⟨0, 0, 0⟩)
       last1 := (⟨5, 0, 0⟩, ⟨0, 0, 0⟩) }]⟩,
   ⟨[[⟨5, 0, 0⟩, ⟨5, 0, 0⟩, ⟨5, 0, 0⟩]], 3⟩⟩

/-- Fixture: `stC10` after loop iteration 0 only. -/
def stC10m : SimState :=
  ⟨⟨[{ bC10 with last0 := (⟨0, 0, 0⟩, ⟨1, 0, 0⟩) }]⟩,
   ⟨[[⟨0, 0, 0⟩, ⟨0, 0, 0⟩]], 1⟩⟩

/-- Fixture: `stW7` after loop iteration 0 only. -/
def stW7m : SimState :=
  ⟨⟨[{ bW7 with last0 := (⟨0, 0, 0⟩, ⟨2, 0, 0⟩) }]⟩,
   ⟨[[⟨0, 0, 0⟩, ⟨0, 0, 0⟩]], 1⟩⟩

/-- Fixture: `stW10` after loop iteration 0 only. -/
def stW10m1 : SimState :=
  ⟨⟨[{ bW10 with last0 := (⟨5, 0, 0⟩, ⟨0, 0, 0⟩) }]⟩,
   ⟨[[⟨5, 0, 0⟩, ⟨0, 0, 0⟩, ⟨0, 0, 0⟩]], 1⟩⟩

/-- Fixture: `stW10` after loop iterations 0 and 1. -/
def stW10m2 : SimState :=
  ⟨⟨[{ bW10 with
       last0 := (⟨5, 0, 0⟩, ⟨0, 0, 0⟩)
       last1 := (⟨5, 0, 0⟩, ⟨0, 0, 0⟩) }]⟩,
   ⟨[[⟨5, 0, 0⟩, ⟨5, 0, 0⟩, ⟨0, 0, 0⟩]], 2⟩⟩


/-!
Theorems: first generic evaluation lemmas, then one theorem per claim (with
witnesses and counterexamples where required).
-/

namespace Vec3

@[simp] theorem zero_def : (0 : Vec3) = ⟨0, 0, 0⟩ := rfl

@[simp] theorem add_def (a b : Vec3) : a + b = ⟨a.x + b.x, a.y + b.y, a.z + b.z⟩ := rfl

@[simp] theorem neg_def (a : Vec3) : -a = ⟨-a.x, -a.y, -a.z⟩ := rfl

@[simp] theorem sub_def (a b : Vec3) : a - b = ⟨a.x - b.x, a.y - b.y, a.z - b.z⟩ := rfl

@[simp] theorem smul_def (c : ℚ) (a : Vec3) : c • a = ⟨c * a.x, c * a.y, c * a.z⟩ := rfl

@[simp] theorem x_zero : (0 : Vec3).x = 0 := rfl

@[simp] theorem y_zero : (0 : Vec3).y = 0 := rfl

@[simp] theorem z_zero : (0 : Vec3).z = 0 := rfl

@[simp] theorem mk_eq_zero (a b c : ℚ) :
    (Vec3.mk a b c = 0) = (a = 0 ∧ b = 0 ∧ c = 0) := by
  rw [zero_def, Vec3.mk.injEq]

end Vec3

theorem forceComp_zero (m1 m2 : ℚ) : forceComp m1 m2 0 = 0 := by
  simp [forceComp]

theorem forceComp_pos (m1 m2 rc : ℚ) (h : 0 < rc) :
    forceComp m1 m2 rc = -(grav * m1 * m2) / rc ^ 2 := by
  unfold forceComp
  rw [abs_of_pos h, div_self (ne_of_gt h)]
  ring

theorem forceComp_negarg (m1 m2 rc : ℚ) (h : rc < 0) :
    forceComp m1 m2 rc = grav * m1 * m2 / rc ^ 2 := by
  unfold forceComp
  rw [abs_of_neg h, neg_sq, div_neg, div_self (ne_of_lt h)]
  ring

theorem forceComp_neg (m1 m2 rc : ℚ) : forceComp m1 m2 (-rc) = -forceComp m1 m2 rc := by
  unfold forceComp
  rw [abs_neg, neg_div, mul_neg]

theorem forceComp_comm (m1 m2 rc : ℚ) : forceComp m1 m2 rc = forceComp m2 m1 rc := by
  unfold forceComp
  ring

/-- C3 (code bug `System.set_velocities`): on a one-body system with position
`(0,0,0)` and velocity `(9,9,9)`, writing velocities `[(1,2,3)]` leaves the
velocity read at `(9,9,9)` (not the written value) and overwrites the position
with `(1,2,3)`, because the loop body calls `set_position` on each body. -/
theorem set_velocities_writes_positions :
    (sysC3.set_velocities [⟨1, 2, 3⟩]).get_velocities = [⟨9, 9, 9⟩] ∧
    ([(⟨9, 9, 9⟩ : Vec3)] ≠ [(⟨1, 2, 3⟩ : Vec3)]) ∧
    (sysC3.set_velocities [⟨1, 2, 3⟩]).get_positions = [⟨1, 2, 3⟩] ∧
    sysC3.get_positions = [⟨0, 0, 0⟩] := by
  refine ⟨?_, ?_, ?_, ?_⟩ <;>
    norm_num [sysC3, System.set_velocities, System.get_velocities, System.get_positions,
      Body.init, Body.set_position, Body.get_velocity, Body.get_position, Vec3.mk.injEq]

/-- C5 counterexample: the trajectory `Trajectory(0, 0)` has `row_counter = 0 =
n_rows`, yet `set_trajectory_position` succeeds (the write loop runs zero times)
and increments the counter instead of failing. -/
theorem record_at_capacity_succeeds_when_empty :
    traC5.row_counter = 0 ∧
    (∀ buf ∈ traC5.trajectories, buf.length = 0) ∧
    traC5.set_trajectory_position [] = some ⟨[], 1⟩ := by
  refine ⟨rfl, ?_, rfl⟩
  simp [traC5, Trajectory.init]

/-- C4 counterexample: constructing a `Body` with mass `-1` does not fail: the
body is produced with `mass = -1` and `compute_acceleration` happily divides by
the nonpositive mass. -/
theorem body_init_accepts_negative_mass :
    bodyC4.mass = -1 ∧ bodyC4.compute_acceleration ⟨1, 1, 1⟩ = ⟨-1, -1, -1⟩ := by
  constructor
  · rfl
  · norm_num [bodyC4, Body.init, Body.compute_acceleration]

/-- C4 amended: a `Body` constructed with mass `≤ 0` is created successfully —
`Body.__init__` performs no validation, stores the mass verbatim, and
`compute_acceleration` later divides the force by that mass per component
without any error path. -/
theorem body_init_mass_unvalidated (name : String) (x0 y0 z0 vx0 vy0 vz0 m gm r : ℚ)
    (f : Vec3) (hm : m ≤ 0) :
    (Body.init name x0 y0 z0 vx0 vy0 vz0 m gm r).mass = m ∧
    (Body.init name x0 y0 z0 vx0 vy0 vz0 m gm r).compute_acceleration f =
      ⟨f.x / m, f.y / m, f.z / m⟩ :=
  ⟨rfl, rfl⟩

/-- Witness for `body_init_mass_unvalidated` at mass `-2` and force `(4,0,0)`. -/
theorem body_init_mass_unvalidated_witness :
    (-2 : ℚ) ≤ 0 ∧
    ((Body.init "w" 0 0 0 0 0 0 (-2) 0 0).mass = -2 ∧
     (Body.init "w" 0 0 0 0 0 0 (-2) 0 0).compute_acceleration ⟨4, 0, 0⟩ =
       ⟨4 / (-2), 0 / (-2), 0 / (-2)⟩) :=
  ⟨by norm_num, body_init_mass_unvalidated "w" 0 0 0 0 0 0 (-2) 0 0 ⟨4, 0, 0⟩ (by norm_num)⟩

theorem force_bA_bQ : force bA bQ = ⟨-grav / 9, -grav / 16, -grav / 144⟩ := by
  have h3 := forceComp_pos 1 1 3 (by norm_num)
  have h4 := forceComp_pos 1 1 4 (by norm_num)
  have h12 := forceComp_pos 1 1 12 (by norm_num)
  norm_num [force, bA, bQ, Body.init, Body.get_position, Vec3.mk.injEq] at h3 h4 h12 ⊢
  norm_num [h3, h4, h12]

/-- C2 (code bug in the inner `force`): with unit masses at the origin and at
`(3, 4, 12)` — Euclidean distance exactly 13 — the code returns the
componentwise value `(−g/9, −g/16, −g/144)` (because `dist = np.abs(r12)` is
the componentwise absolute value), while the claimed formula with the Euclidean
norm gives `(−3g/2197, −4g/2197, −12g/2197)`.  The two disagree. -/
theorem force_not_spec_formula :
    force bA bQ = ⟨-grav / 9, -grav / 16, -grav / 144⟩ ∧
    specForceEuclid bA bQ 13 = ⟨-3 * grav / 2197, -4 * grav / 2197, -12 * grav / 2197⟩ ∧
    (13 : ℚ) ^ 2 = 3 ^ 2 + 4 ^ 2 + 12 ^ 2 ∧
    (⟨-grav / 9, -grav / 16, -grav / 144⟩ : Vec3) ≠
      ⟨-3 * grav / 2197, -4 * grav / 2197, -12 * grav / 2197⟩ := by
  refine ⟨force_bA_bQ, ?_, by norm_num, ?_⟩
  · norm_num [specForceEuclid, bA, bQ, Body.init, Body.get_position, Vec3.mk.injEq]
    norm_num [grav]
  · norm_num [Vec3.mk.injEq, grav]

theorem force_self (b : Body) : force b b = 0 := by
  simp [force]

theorem force_bA_bB : force bA bB = ⟨-grav, 0, 0⟩ := by
  have h1 := forceComp_pos 1 1 1 (by norm_num)
  norm_num [force, bA, bB, Body.init, Body.get_position, forceComp_zero, Vec3.mk.injEq]
    at h1 ⊢
  norm_num [h1]

theorem force_bB_bA : force bB bA = ⟨grav, 0, 0⟩ := by
  have h1 := forceComp_negarg 1 1 (-1) (by norm_num)
  norm_num [force, bA, bB, Body.init, Body.get_position, forceComp_zero, Vec3.mk.injEq]
    at h1 ⊢
  norm_num [h1]

/-- C1 (code bug in `System.get_accelerations`): for the two-body system
`[bA, bB]` (unit masses at the origin and `(1,0,0)`), the code's accelerations
are `[(−g,0,0), (g,0,0)]` — row `k` of `np.sum(F, axis=1)` is `Σ_j F[k][j]`,
the force `k` exerts on the others.  The claimed resultant `Σ_i F[i][k]`
divided by the mass gives `(−g,0,0)` for body `bB`, the negation of what the
code uses. -/
theorem accel_uses_wrong_axis :
    sysAB.get_accelerations = [⟨-grav, 0, 0⟩, ⟨grav, 0, 0⟩] ∧
    Body.compute_acceleration bB (specResultantForce sysAB idxB) = ⟨-grav, 0, 0⟩ ∧
    ((⟨grav, 0, 0⟩ : Vec3) ≠ ⟨-grav, 0, 0⟩) := by
  refine ⟨?_, ?_, ?_⟩
  · have hmA : bA.mass = 1 := rfl
    have hmB : bB.mass = 1 := rfl
    simp [System.get_accelerations, System.resforce, sysAB, force_self, force_bA_bB,
      force_bB_bA, Body.compute_acceleration, hmA, hmB, Vec3.mk.injEq]
  · have hs : specResultantForce sysAB idxB = force bA bB + force bB bB := by
      show (∑ i : Fin 2, sysAB.force_matrix i idxB) = force bA bB + force bB bB
      rw [Fin.sum_univ_two]
      rfl
    have hmB : bB.mass = 1 := rfl
    rw [hs, force_bA_bB, force_self]
    simp [Body.compute_acceleration, hmB, Vec3.mk.injEq]
  · norm_num [Vec3.mk.injEq, grav]

theorem forceComp_antisymm (m1 m2 c1 c2 : ℚ) :
    forceComp m1 m2 (c2 - c1) = -forceComp m2 m1 (c1 - c2) := by
  rw [show c1 - c2 = -(c2 - c1) from by ring, forceComp_neg, forceComp_comm m2 m1, neg_neg]

theorem force_antisymm (b1 b2 : Body) : force b1 b2 = -force b2 b1 := by
  simp only [force]
  by_cases h : b2.get_position = b1.get_position
  · rw [if_pos h, if_pos h.symm]
    simp
  · rw [if_neg h, if_neg (fun hh => h hh.symm)]
    simp only [Vec3.neg_def, Vec3.mk.injEq]
    exact ⟨forceComp_antisymm _ _ _ _, forceComp_antisymm _ _ _ _, forceComp_antisymm _ _ _ _⟩

/-- C8: for every system the force matrix is antisymmetric off the diagonal
(`F[i][j] = −F[j][i]` — exactly, in the rational model) and every diagonal
entry is the zero vector (the `np.array_equal` guard fires for `i = j`). -/
theorem force_matrix_antisymm_and_no_self_force (sys : System) (i j : Fin sys.n) :
    (i ≠ j → sys.force_matrix i j = -sys.force_matrix j i) ∧
    sys.force_matrix i i = 0 :=
  ⟨fun _ => force_antisymm _ _, force_self _⟩

/-- Witness for `force_matrix_antisymm_and_no_self_force` on the concrete
two-body system `sysAB` at indices 0 and 1. -/
theorem force_matrix_antisymm_witness :
    sysAB.force_matrix idxA idxB = -sysAB.force_matrix idxB idxA ∧
    sysAB.force_matrix idxA idxA = 0 :=
  ⟨(force_matrix_antisymm_and_no_self_force sysAB idxA idxB).1 (by decide),
   (force_matrix_antisymm_and_no_self_force sysAB idxA idxA).2⟩

namespace Trajectory

theorem setRow_some (l : List Vec3) (r : ℕ) (v : Vec3) (h : r < l.length) :
    setRow l r v = some (l.set r v) := if_pos h

theorem setRow_none (l : List Vec3) (r : ℕ) (v : Vec3) (h : l.length ≤ r) :
    setRow l r v = none := if_neg (Nat.not_lt.mpr h)

theorem setRows_eq (r : ℕ) :
    ∀ (bufs : List (List Vec3)) (pos : List Vec3),
      pos.length = bufs.length → (∀ buf ∈ bufs, r < buf.length) →
      setRows bufs pos r = some (List.zipWith (fun buf p => buf.set r p) bufs pos) := by
  intro bufs
  induction bufs with
  | nil =>
    intro pos hl _
    rw [List.length_nil, List.length_eq_zero] at hl
    subst hl
    rfl
  | cons t ts ih =>
    intro pos hl hall
    cases pos with
    | nil => simp at hl
    | cons p ps =>
      have ht : r < t.length := hall t (by simp)
      have hrec := ih ps (by simpa using hl) (fun b hb => hall b (by simp [hb]))
      simp [setRows, setRow_some t r p ht, hrec]

theorem setRows_fail (r : ℕ) (t : List Vec3) (ts : List (List Vec3)) (p : Vec3)
    (ps : List Vec3) (h : t.length ≤ r) : setRows (t :: ts) (p :: ps) r = none := by
  simp [setRows, setRow_none t r p h]

theorem record_lt_some (tra : Trajectory) (nrows : ℕ) (pos : List Vec3)
    (hlen : ∀ buf ∈ tra.trajectories, buf.length = nrows)
    (hpos : pos.length = tra.trajectories.length)
    (hrc : tra.row_counter < nrows) :
    tra.set_trajectory_position pos =
      some ⟨List.zipWith (fun buf p => buf.set tra.row_counter p) tra.trajectories pos,
            tra.row_counter + 1⟩ := by
  unfold set_trajectory_position
  rw [setRows_eq tra.row_counter tra.trajectories pos hpos
    (fun buf hb => by rw [hlen buf hb]; exact hrc)]
  rfl

theorem record_full_none (tra : Trajectory) (nrows : ℕ) (pos : List Vec3)
    (hlen : ∀ buf ∈ tra.trajectories, buf.length = nrows)
    (hpos : pos.length = tra.trajectories.length)
    (hne : tra.trajectories ≠ [])
    (hrc : nrows ≤ tra.row_counter) :
    tra.set_trajectory_position pos = none := by
  obtain ⟨t, ts, hts⟩ := List.exists_cons_of_ne_nil hne
  unfold set_trajectory_position
  rw [hts] at hpos ⊢
  cases pos with
  | nil => simp at hpos
  | cons p ps =>
    rw [setRows_fail tra.row_counter t ts p ps
      (by rw [hlen t (by rw [hts]; simp)]; exact hrc)]
    rfl

end Trajectory

/-- C5 amended: for a trajectory whose (at least one) buffers all have capacity
`n_rows` and a position matrix with one row per buffer, recording when
`row_counter = n_rows` fails (returns an error, with no state change in this
pure model — in the source the IndexError is raised before the first mutation),
and recording when `row_counter < n_rows` succeeds, writes row `row_counter` of
every buffer, and increments `row_counter` by one.  (With zero bodies the
failure branch does not occur; see the counterexample.) -/
theorem record_capacity_law (tra : Trajectory) (nrows : ℕ) (pos : List Vec3)
    (hlen : ∀ buf ∈ tra.trajectories, buf.length = nrows)
    (hpos : pos.length = tra.trajectories.length) :
    (tra.trajectories ≠ [] → tra.row_counter = nrows →
       tra.set_trajectory_position pos = none) ∧
    (tra.row_counter < nrows →
       tra.set_trajectory_position pos =
         some ⟨List.zipWith (fun buf p => buf.set tra.row_counter p) tra.trajectories pos,
               tra.row_counter + 1⟩) :=
  ⟨fun hne hrc => Trajectory.record_full_none tra nrows pos hlen hpos hne (le_of_eq hrc.symm),
   fun hrc => Trajectory.record_lt_some tra nrows pos hlen hpos hrc⟩

/-- Witness for `record_capacity_law`: a one-body trajectory of capacity 1 that
is already full (counter 1) rejects a record; the same trajectory when fresh
(counter 0) accepts one. -/
theorem record_capacity_law_witness :
    ((Trajectory.mk [[⟨7, 7, 7⟩]] 1).trajectories ≠ [] →
       (Trajectory.mk [[⟨7, 7, 7⟩]] 1).row_counter = 1 →
       (Trajectory.mk [[⟨7, 7, 7⟩]] 1).set_trajectory_position [⟨1, 2, 3⟩] = none) ∧
    ((Trajectory.mk [[⟨7, 7, 7⟩]] 1).row_counter < 1 →
       (Trajectory.mk [[⟨7, 7, 7⟩]] 1).set_trajectory_position [⟨1, 2, 3⟩] =
         some ⟨List.zipWith (fun buf p => buf.set 1 p) [[⟨7, 7, 7⟩]] [⟨1, 2, 3⟩], 2⟩) :=
  record_capacity_law (Trajectory.mk [[⟨7, 7, 7⟩]] 1) 1 [⟨1, 2, 3⟩]
    (by intro buf hb; simp at hb; simp [hb]) (by simp)

theorem zipWith_set_buf_length (r nrows : ℕ) :
    ∀ (bufs : List (List Vec3)) (pos : List Vec3),
      (∀ buf ∈ bufs, buf.length = nrows) →
      ∀ buf' ∈ List.zipWith (fun buf p => buf.set r p) bufs pos, buf'.length = nrows := by
  intro bufs
  induction bufs with
  | nil => intro pos _ buf' hb; simp at hb
  | cons t ts ih =>
    intro pos hall buf' hb
    cases pos with
    | nil => simp at hb
    | cons p ps =>
      rw [List.zipWith_cons_cons, List.mem_cons] at hb
      rcases hb with hb | hb
      · rw [hb, List.length_set]
        exact hall t (by simp)
      · exact ih ps (fun b h => hall b (by simp [h])) buf' hb

theorem zipWith_set_getD (r : ℕ) :
    ∀ (bufs : List (List Vec3)) (pos : List Vec3) (b : ℕ),
      pos.length = bufs.length →
      (List.zipWith (fun buf p => buf.set r p) bufs pos).getD b [] =
        if b < bufs.length then (bufs.getD b []).set r (pos.getD b 0) else [] := by
  intro bufs
  induction bufs with
  | nil =>
    intro pos b hl
    rw [List.length_nil, List.length_eq_zero] at hl
    subst hl
    simp
  | cons t ts ih =>
    intro pos b hl
    cases pos with
    | nil => simp at hl
    | cons p ps =>
      rw [List.zipWith_cons_cons]
      cases b with
      | zero => simp
      | succ b =>
        rw [List.getD_cons_succ, List.getD_cons_succ, List.getD_cons_succ,
          ih ps b (by simpa using hl)]
        by_cases hb : b < ts.length
        · rw [if_pos hb, if_pos (by simpa using hb)]
        · rw [if_neg hb, if_neg (by simpa using hb)]

theorem recordList_spec (nrows : ℕ) :
    ∀ (inputs : List (List Vec3)) (tra : Trajectory),
      (∀ buf ∈ tra.trajectories, buf.length = nrows) →
      (∀ ps ∈ inputs, ps.length = tra.trajectories.length) →
      tra.row_counter + inputs.length ≤ nrows →
      ∃ tra', recordList tra inputs = some tra' ∧
        tra'.row_counter = tra.row_counter + inputs.length ∧
        tra'.trajectories.length = tra.trajectories.length ∧
        (∀ buf ∈ tra'.trajectories, buf.length = nrows) ∧
        ∀ b r, (tra'.trajectories.getD b []).get? r =
          if tra.row_counter ≤ r ∧ r < tra.row_counter + inputs.length ∧
              b < tra.trajectories.length then
            some ((inputs.getD (r - tra.row_counter) []).getD b 0)
          else (tra.trajectories.getD b []).get? r := by
  intro inputs
  induction inputs with
  | nil =>
    intro tra h1 _ _
    refine ⟨tra, rfl, by simp, rfl, h1, ?_⟩
    intro b r
    simp only [List.length_nil]
    rw [if_neg (by omega)]
  | cons ps rest ih =>
    intro tra hlen hin hcap
    have hps : ps.length = tra.trajectories.length := hin ps (by simp)
    have hrc : tra.row_counter < nrows := by
      rw [List.length_cons] at hcap
      omega
    have hstep := Trajectory.record_lt_some tra nrows ps hlen hps hrc
    have hlen1 :
        (List.zipWith (fun buf p => buf.set tra.row_counter p) tra.trajectories ps).length
          = tra.trajectories.length := by
      rw [List.length_zipWith, hps, Nat.min_self]
    obtain ⟨tra', hrun, hctr, hlen', hbufs', hchar⟩ :=
      ih ⟨List.zipWith (fun buf p => buf.set tra.row_counter p) tra.trajectories ps,
          tra.row_counter + 1⟩
        (zipWith_set_buf_length tra.row_counter nrows tra.trajectories ps hlen)
        (fun qs hq => by dsimp only; rw [hlen1]; exact hin qs (by simp [hq]))
        (by dsimp only; rw [List.length_cons] at hcap; omega)
    dsimp only at hctr hlen' hchar
    refine ⟨tra', ?_, ?_, ?_, hbufs', ?_⟩
    · rw [recordList, hstep]
      exact hrun
    · rw [hctr, List.length_cons]
      omega
    · rw [hlen', hlen1]
    · intro b r
      rw [hchar b r, zipWith_set_getD tra.row_counter tra.trajectories ps b hps]
      by_cases hb : b < tra.trajectories.length
      · by_cases h1 : tra.row_counter + 1 ≤ r ∧ r < tra.row_counter + 1 + rest.length
        · rw [if_pos ⟨h1.1, h1.2, by rw [hlen1]; exact hb⟩,
            if_pos ⟨by omega, by rw [List.length_cons]; omega, hb⟩,
            show r - tra.row_counter = (r - (tra.row_counter + 1)) + 1 from by omega,
            List.getD_cons_succ]
        · rw [if_neg (fun hc => h1 ⟨hc.1, hc.2.1⟩), if_pos hb, List.get?_set]
          by_cases h2 : tra.row_counter = r
          · subst h2
            rw [if_pos rfl, if_pos ⟨le_refl _, by rw [List.length_cons]; omega, hb⟩]
            have hblen : (tra.trajectories.getD b []).length = nrows := by
              rw [List.getD_eq_getElem tra.trajectories [] hb]
              exact hlen _ (List.getElem_mem hb)
            rw [List.get?_eq_get
              (by rw [hblen]; omega : tra.row_counter < (tra.trajectories.getD b []).length)]
            rw [Nat.sub_self, List.getD_cons_zero]
            rfl
          · rw [if_neg h2, if_neg (by rw [List.length_cons]; omega)]
      · rw [if_neg (fun hc => hb (by rw [← hlen1]; exact hc.2.2)), if_neg hb,
          if_neg (fun hc => hb hc.2.2)]
        rw [List.getD_eq_default _ _ (by omega : tra.trajectories.length ≤ b)]

/-- C9 (trajectory append law): recording `k ≤ n_rows` position matrices into a
fresh `Trajectory(n, n_rows)` succeeds, leaves `row_counter = k`, and for every
body index `b < n` the first `k` rows of `get_trajectory b` are exactly the `k`
rows passed for `b`, in call order (row 0 first). -/
theorem trajectory_append_law (n nrows : ℕ) (inputs : List (List Vec3))
    (hk : inputs.length ≤ nrows)
    (hin : ∀ ps ∈ inputs, ps.length = n) :
    ∃ tra', recordList (Trajectory.init n nrows) inputs = some tra' ∧
      tra'.row_counter = inputs.length ∧
      ∀ b, b < n →
        (tra'.get_trajectory b).take inputs.length =
          inputs.map (fun ps => ps.getD b 0) := by
  obtain ⟨tra', hrun, hctr, hlen', hbufs', hchar⟩ :=
    recordList_spec nrows inputs (Trajectory.init n nrows)
      (fun buf hb => by
        have hbe := List.eq_of_mem_replicate (by simpa [Trajectory.init] using hb)
        rw [hbe, List.length_replicate])
      (fun ps hp => by simp only [Trajectory.init, List.length_replicate]; exact hin ps hp)
      (by simp only [Trajectory.init]; omega)
  refine ⟨tra', hrun, by simpa [Trajectory.init] using hctr, ?_⟩
  intro b hb
  apply List.ext_get?
  intro r
  rw [List.get?_eq_getElem?, List.getElem?_take]
  by_cases hr : r < inputs.length
  · rw [if_pos hr, ← List.get?_eq_getElem?]
    simp only [Trajectory.get_trajectory]
    rw [hchar b r,
      if_pos ⟨Nat.zero_le r, by simpa [Trajectory.init] using hr,
        by simpa [Trajectory.init] using hb⟩]
    rw [List.get?_map]
    simp only [Trajectory.init]
    rw [Nat.sub_zero, List.getD_eq_getElem inputs [] hr, List.get?_eq_get hr]
    rfl
  · rw [if_neg hr]
    rw [List.get?_len_le (by rw [List.length_map]; omega)]

/-- Witness for `trajectory_append_law`: a one-body trajectory of capacity 2
receiving two records. -/
theorem trajectory_append_law_witness :
    (([[⟨1, 2, 3⟩], [⟨4, 5, 6⟩]] : List (List Vec3)).length ≤ 2 ∧
      ∀ ps ∈ ([[⟨1, 2, 3⟩], [⟨4, 5, 6⟩]] : List (List Vec3)), ps.length = 1) ∧
    ∃ tra', recordList (Trajectory.init 1 2) [[⟨1, 2, 3⟩], [⟨4, 5, 6⟩]] = some tra' ∧
      tra'.row_counter = ([[⟨1, 2, 3⟩], [⟨4, 5, 6⟩]] : List (List Vec3)).length ∧
      ∀ b, b < 1 →
        (tra'.get_trajectory b).take ([[⟨1, 2, 3⟩], [⟨4, 5, 6⟩]] : List (List Vec3)).length =
          ([[⟨1, 2, 3⟩], [⟨4, 5, 6⟩]] : List (List Vec3)).map (fun ps => ps.getD b 0) :=
  ⟨⟨by simp, by simp⟩, trajectory_append_law 1 2 [[⟨1, 2, 3⟩], [⟨4, 5, 6⟩]] (by simp) (by simp)⟩

theorem map_zipWith_left {α β γ : Type _} (f : α → β → α) (g : α → γ)
    (h : ∀ a b, g (f a b) = g a) :
    ∀ (l1 : List α) (l2 : List β), l1.length ≤ l2.length →
      (List.zipWith f l1 l2).map g = l1.map g := by
  intro l1
  induction l1 with
  | nil => intro l2 _; simp
  | cons a t ih =>
    intro l2 hl
    cases l2 with
    | nil => exact absurd hl (by simp)
    | cons b s =>
      rw [List.zipWith_cons_cons, List.map_cons, List.map_cons, h a b,
        ih s (by simpa using hl)]

theorem map_zipWith_right {α β γ : Type _} (f : α → β → α) (g : α → γ) (g2 : β → γ)
    (h : ∀ a b, g (f a b) = g2 b) :
    ∀ (l1 : List α) (l2 : List β), l2.length ≤ l1.length →
      (List.zipWith f l1 l2).map g = l2.map g2 := by
  intro l1
  induction l1 with
  | nil =>
    intro l2 hl
    rw [List.length_nil, Nat.le_zero, List.length_eq_zero] at hl
    subst hl
    rfl
  | cons a t ih =>
    intro l2 hl
    cases l2 with
    | nil => rfl
    | cons b s =>
      rw [List.zipWith_cons_cons, List.map_cons, List.map_cons, h a b,
        ih s (by simpa using hl)]

namespace Body

theorem velMassProj_set_position (b : Body) (x y z : ℚ) :
    velMassProj (b.set_position x y z) = velMassProj b := rfl

theorem velMassProj_set_integration_result (b : Body) (pos : Fin 2) (res : Vec3 × Vec3) :
    velMassProj (b.set_integration_result pos res) = velMassProj b := by
  unfold set_integration_result
  split <;> rfl

theorem get_integration_result_set_position (b : Body) (x y z : ℚ) (s : Fin 2) :
    (b.set_position x y z).get_integration_result s = b.get_integration_result s := by
  unfold set_position get_integration_result
  split <;> rfl

theorem get_set_integration_result_same (b : Body) (s : Fin 2) (res : Vec3 × Vec3) :
    (b.set_integration_result s res).get_integration_result s = res := by
  unfold set_integration_result get_integration_result
  by_cases h : s = 0
  · rw [if_pos h, if_pos h]
  · rw [if_neg h, if_neg h]

theorem get_set_integration_result_other (b : Body) (s s' : Fin 2) (res : Vec3 × Vec3)
    (h : s' ≠ s) :
    (b.set_integration_result s res).get_integration_result s' = b.get_integration_result s' := by
  fin_cases s <;> fin_cases s' <;>
    simp_all [Body.set_integration_result, Body.get_integration_result]

theorem get_position_set_position (b : Body) (x y z : ℚ) :
    (b.set_position x y z).get_position = ⟨x, y, z⟩ := rfl

theorem get_position_set_integration_result (b : Body) (pos : Fin 2) (res : Vec3 × Vec3) :
    (b.set_integration_result pos res).get_position = b.get_position := by
  unfold set_integration_result
  split <;> rfl

end Body

namespace System

theorem length_set_positions (sys : System) (q : List Vec3) :
    (sys.set_positions q).bodies.length = min sys.bodies.length q.length := by
  unfold set_positions
  exact List.length_zipWith _ _ _

theorem length_set_integration_results (sys : System) (s : Fin 2) (rp rv : List Vec3) :
    (sys.set_integration_results s rp rv).bodies.length =
      min sys.bodies.length (min rp.length rv.length) := by
  unfold set_integration_results
  rw [List.length_zipWith, List.length_zip]

theorem velMassProj_set_positions (sys : System) (q : List Vec3)
    (hq : sys.bodies.length ≤ q.length) :
    (sys.set_positions q).bodies.map velMassProj = sys.bodies.map velMassProj := by
  unfold set_positions
  exact map_zipWith_left (fun b p => b.set_position p.x p.y p.z) velMassProj
    (fun a b => Body.velMassProj_set_position a b.x b.y b.z) sys.bodies q hq

theorem velMassProj_set_integration_results (sys : System) (s : Fin 2) (rp rv : List Vec3)
    (h : sys.bodies.length ≤ min rp.length rv.length) :
    (sys.set_integration_results s rp rv).bodies.map velMassProj =
      sys.bodies.map velMassProj := by
  unfold set_integration_results
  exact map_zipWith_left (fun b pv => b.set_integration_result s pv) velMassProj
    (fun a b => Body.velMassProj_set_integration_result a s b)
    sys.bodies (rp.zip rv) (by rw [List.length_zip]; exact h)

theorem velParts_set_positions (sys : System) (q : List Vec3) (s : Fin 2)
    (hq : sys.bodies.length ≤ q.length) :
    velParts ((sys.set_positions q).get_integration_results s) =
      velParts (sys.get_integration_results s) := by
  unfold velParts get_integration_results set_positions
  rw [List.map_map, List.map_map]
  exact map_zipWith_left _ _
    (fun a b => by
      show ((a.set_position b.x b.y b.z).get_integration_result s).2 =
        (a.get_integration_result s).2
      rw [Body.get_integration_result_set_position])
    sys.bodies q hq

theorem posParts_set_positions (sys : System) (q : List Vec3) (s : Fin 2)
    (hq : sys.bodies.length ≤ q.length) :
    posParts ((sys.set_positions q).get_integration_results s) =
      posParts (sys.get_integration_results s) := by
  unfold posParts get_integration_results set_positions
  rw [List.map_map, List.map_map]
  exact map_zipWith_left _ _
    (fun a b => by
      show ((a.set_position b.x b.y b.z).get_integration_result s).1 =
        (a.get_integration_result s).1
      rw [Body.get_integration_result_set_position])
    sys.bodies q hq

theorem velParts_set_integration_results_same (sys : System) (s : Fin 2)
    (rp rv : List Vec3) (hrp : rp.length = sys.bodies.length)
    (hrv : rv.length = sys.bodies.length) :
    velParts ((sys.set_integration_results s rp rv).get_integration_results s) = rv := by
  unfold velParts get_integration_results set_integration_results
  rw [List.map_map]
  rw [map_zipWith_right _ _ (fun pv => pv.2)
    (fun a b => by
      show ((a.set_integration_result s b).get_integration_result s).2 = b.2
      rw [Body.get_set_integration_result_same])
    sys.bodies (rp.zip rv) (by rw [List.length_zip]; omega)]
  exact List.map_snd_zip rp rv (by omega)

theorem velParts_set_integration_results_other (sys : System) (s s' : Fin 2)
    (rp rv : List Vec3) (hs : s' ≠ s)
    (h : sys.bodies.length ≤ min rp.length rv.length) :
    velParts ((sys.set_integration_results s rp rv).get_integration_results s') =
      velParts (sys.get_integration_results s') := by
  unfold velParts get_integration_results set_integration_results
  rw [List.map_map, List.map_map]
  exact map_zipWith_left _ _
    (fun a b => by
      show ((a.set_integration_result s b).get_integration_result s').2 =
        (a.get_integration_result s').2
      rw [Body.get_set_integration_result_other a s s' b hs])
    sys.bodies (rp.zip rv) (by rw [List.length_zip]; exact h)

theorem length_get_positions (sys : System) : sys.get_positions.length = sys.bodies.length :=
  List.length_map _ _

theorem length_get_velocities (sys : System) :
    sys.get_velocities.length = sys.bodies.length :=
  List.length_map _ _

theorem length_get_accelerations (sys : System) :
    sys.get_accelerations.length = sys.bodies.length :=
  List.length_map _ _

theorem length_get_integration_results (sys : System) (s : Fin 2) :
    (sys.get_integration_results s).length = sys.bodies.length :=
  List.length_map _ _

end System

theorem length_posParts (l : List (Vec3 × Vec3)) : (posParts l).length = l.length :=
  List.length_map _ _

theorem length_velParts (l : List (Vec3 × Vec3)) : (velParts l).length = l.length :=
  List.length_map _ _

theorem length_ladd (a b : List Vec3) : (ladd a b).length = min a.length b.length :=
  List.length_zipWith _ _ _

theorem length_lsub (a b : List Vec3) : (lsub a b).length = min a.length b.length :=
  List.length_zipWith _ _ _

theorem length_lsmul (c : ℚ) (a : List Vec3) : (lsmul c a).length = a.length :=
  List.length_map _ _

theorem olderIdx_even {k : ℕ} (h : k % 2 = 0) : olderIdx k = 0 := if_pos h

theorem olderIdx_odd {k : ℕ} (h : ¬ k % 2 = 0) : olderIdx k = 1 := if_neg h

theorem newerIdx_even {k : ℕ} (h : k % 2 = 0) : newerIdx k = 1 := if_pos h

theorem newerIdx_odd {k : ℕ} (h : ¬ k % 2 = 0) : newerIdx k = 0 := if_neg h

theorem verletStep_ge_two (dt : ℚ) (p0 : List Vec3) (k : ℕ) (st st' : SimState)
    (hk : 2 ≤ k) (h : verletStep dt p0 k st = some st') :
    st.tra.set_trajectory_position (qplusOf dt st k) = some st'.tra ∧
    st'.sol = (st.sol.set_integration_results (olderIdx k) (qplusOf dt st k)
      p0).set_positions (qplusOf dt st k) := by
  have h0 : ¬ k = 0 := by omega
  have h1 : ¬ k = 1 := by omega
  rw [verletStep, if_neg h0, if_neg h1] at h
  by_cases h2 : k % 2 = 0
  · have hq : qplusOf dt st k =
        ladd (lsub (lsmul 2 (posParts (st.sol.get_integration_results 1)))
          (posParts (st.sol.get_integration_results 0)))
          (lsmul (dt ^ 2) st.sol.get_accelerations) := by
      rw [qplusOf, olderIdx_even h2, newerIdx_even h2]
    rw [if_pos h2] at h
    dsimp only at h
    rw [← hq] at h
    cases hrec : st.tra.set_trajectory_position (qplusOf dt st k) with
    | none => rw [hrec] at h; exact absurd h (by simp)
    | some t =>
      rw [hrec] at h
      have hst := Option.some.inj h
      subst hst
      exact ⟨rfl, by rw [olderIdx_even h2]⟩
  · have hq : qplusOf dt st k =
        ladd (lsub (lsmul 2 (posParts (st.sol.get_integration_results 0)))
          (posParts (st.sol.get_integration_results 1)))
          (lsmul (dt ^ 2) st.sol.get_accelerations) := by
      rw [qplusOf, olderIdx_odd h2, newerIdx_odd h2]
    rw [if_neg h2] at h
    dsimp only at h
    rw [← hq] at h
    cases hrec : st.tra.set_trajectory_position (qplusOf dt st k) with
    | none => rw [hrec] at h; exact absurd h (by simp)
    | some t =>
      rw [hrec] at h
      have hst := Option.some.inj h
      subst hst
      exact ⟨rfl, by rw [olderIdx_odd h2]⟩

/-- C6: at every loop iteration `k ≥ 2` that completes, the emitted position is
`q_{n+1} = 2·q_n − q_{n-1} + A·dt²` with the older slot (`q_{n-1}`) and newer
slot (`q_n`) selected by `k mod 2`; `q_{n+1}` is appended to the trajectory,
overwrites the older slot (paired with the initial velocity sample `p0`), and
becomes the system's current positions. -/
theorem verlet_step_recurrence (dt : ℚ) (p0 : List Vec3) (k : ℕ) (st st' : SimState)
    (hk : 2 ≤ k) (h : verletStep dt p0 k st = some st') :
    st.tra.set_trajectory_position (qplusOf dt st k) = some st'.tra ∧
    st'.sol = (st.sol.set_integration_results (olderIdx k) (qplusOf dt st k)
      p0).set_positions (qplusOf dt st k) :=
  verletStep_ge_two dt p0 k st st' hk h

theorem verletStep_zero (dt : ℚ) (p0 : List Vec3) (st st' : SimState)
    (h : verletStep dt p0 0 st = some st') :
    st.tra.set_trajectory_position st.sol.get_positions = some st'.tra ∧
    st'.sol = st.sol.set_integration_results 0 st.sol.get_positions p0 := by
  rw [verletStep, if_pos rfl] at h
  dsimp only at h
  cases hrec : st.tra.set_trajectory_position st.sol.get_positions with
  | none => rw [hrec] at h; exact absurd h (by simp)
  | some t =>
    rw [hrec] at h
    have hst := Option.some.inj h
    subst hst
    exact ⟨rfl, rfl⟩

theorem verletStep_one (dt : ℚ) (p0 : List Vec3) (st st' : SimState)
    (h : verletStep dt p0 1 st = some st') :
    st.tra.set_trajectory_position (q1Of dt p0 st) = some st'.tra ∧
    st'.sol = (st.sol.set_integration_results 1 (q1Of dt p0 st) p0).set_positions
      (q1Of dt p0 st) := by
  rw [verletStep, if_neg (by omega : ¬ (1 : ℕ) = 0), if_pos rfl] at h
  dsimp only at h
  rw [show ladd (ladd (posParts (st.sol.get_integration_results 0)) (lsmul dt p0))
      (lsmul (1 / 2 * dt ^ 2) st.sol.get_accelerations) = q1Of dt p0 st from rfl] at h
  cases hrec : st.tra.set_trajectory_position (q1Of dt p0 st) with
  | none => rw [hrec] at h; exact absurd h (by simp)
  | some t =>
    rw [hrec] at h
    have hst := Option.some.inj h
    subst hst
    exact ⟨rfl, rfl⟩

theorem writtenSlot_zero : writtenSlot 0 = 0 := rfl

theorem writtenSlot_one : writtenSlot 1 = 1 := rfl

theorem writtenSlot_ge_two {k : ℕ} (hk : 2 ≤ k) : writtenSlot k = olderIdx k := by
  unfold writtenSlot
  rw [if_neg (by omega), if_neg (by omega)]

namespace System

theorem write_move_effects (sys : System) (s : Fin 2) (rp rv q : List Vec3)
    (hrp : rp.length = sys.bodies.length) (hrv : rv.length = sys.bodies.length)
    (hq : q.length = sys.bodies.length) :
    ((sys.set_integration_results s rp rv).set_positions q).bodies.length =
      sys.bodies.length ∧
    ((sys.set_integration_results s rp rv).set_positions q).bodies.map velMassProj =
      sys.bodies.map velMassProj ∧
    velParts (((sys.set_integration_results s rp rv).set_positions
      q).get_integration_results s) = rv ∧
    ∀ s' : Fin 2, s' ≠ s →
      velParts (((sys.set_integration_results s rp rv).set_positions
        q).get_integration_results s') = velParts (sys.get_integration_results s') := by
  have hn1 : (sys.set_integration_results s rp rv).bodies.length = sys.bodies.length := by
    rw [length_set_integration_results]
    omega
  refine ⟨?_, ?_, ?_, ?_⟩
  · rw [length_set_positions, hn1]
    omega
  · rw [velMassProj_set_positions _ q (by rw [hn1]; omega),
      velMassProj_set_integration_results _ _ _ _ (by omega)]
  · rw [velParts_set_positions _ _ _ (by rw [hn1]; omega),
      velParts_set_integration_results_same _ _ _ _ hrp hrv]
  · intro s' hs'
    rw [velParts_set_positions _ _ _ (by rw [hn1]; omega),
      velParts_set_integration_results_other _ _ _ _ _ hs' (by omega)]

end System

theorem verletStep_effects (dt : ℚ) (p0 : List Vec3) (k : ℕ) (st st' : SimState)
    (hp : p0.length = st.sol.bodies.length)
    (h : verletStep dt p0 k st = some st') :
    st'.sol.bodies.length = st.sol.bodies.length ∧
    st'.sol.bodies.map velMassProj = st.sol.bodies.map velMassProj ∧
    velParts (st'.sol.get_integration_results (writtenSlot k)) = p0 ∧
    ∀ s : Fin 2, s ≠ writtenSlot k →
      velParts (st'.sol.get_integration_results s) =
        velParts (st.sol.get_integration_results s) := by
  rcases Nat.lt_or_ge k 2 with hk2 | hk2
  · rcases Nat.lt_or_ge k 1 with hk1 | hk1
    · have hk0 : k = 0 := by omega
      subst hk0
      obtain ⟨_, hsol⟩ := verletStep_zero dt p0 st st' h
      rw [writtenSlot_zero, hsol]
      have hq0 : st.sol.get_positions.length = st.sol.bodies.length :=
        System.length_get_positions _
      refine ⟨?_, ?_, ?_, ?_⟩
      · rw [System.length_set_integration_results]
        omega
      · exact System.velMassProj_set_integration_results _ _ _ _ (by omega)
      · exact System.velParts_set_integration_results_same _ _ _ _ hq0 hp
      · intro s hs
        exact System.velParts_set_integration_results_other _ _ _ _ _ hs (by omega)
    · have hk1' : k = 1 := by omega
      subst hk1'
      obtain ⟨_, hsol⟩ := verletStep_one dt p0 st st' h
      rw [writtenSlot_one, hsol]
      have hq1 : (q1Of dt p0 st).length = st.sol.bodies.length := by
        rw [q1Of, length_ladd, length_ladd, length_lsmul, length_lsmul, length_posParts,
          System.length_get_integration_results, System.length_get_accelerations]
        omega
      exact System.write_move_effects st.sol 1 (q1Of dt p0 st) p0 (q1Of dt p0 st) hq1 hp hq1
  · obtain ⟨_, hsol⟩ := verletStep_ge_two dt p0 k st st' hk2 h
    rw [writtenSlot_ge_two hk2, hsol]
    have hqp : (qplusOf dt st k).length = st.sol.bodies.length := by
      rw [qplusOf, length_ladd, length_lsub, length_lsmul, length_lsmul, length_posParts,
        length_posParts, System.length_get_integration_results,
        System.length_get_integration_results, System.length_get_accelerations]
      omega
    exact System.write_move_effects st.sol (olderIdx k) (qplusOf dt st k) p0
      (qplusOf dt st k) hqp hp hqp

theorem runSteps_zero_eq (dt : ℚ) (p0 : List Vec3) (st : SimState) :
    runSteps dt p0 0 st = some st := rfl

theorem runSteps_succ_eq (dt : ℚ) (p0 : List Vec3) (k : ℕ) (st : SimState) :
    runSteps dt p0 (k + 1) st = (runSteps dt p0 k st).bind (verletStep dt p0 k) := rfl

theorem runSteps_effects (dt : ℚ) (p0 : List Vec3) (st0 : SimState)
    (hp : p0.length = st0.sol.bodies.length) :
    ∀ (k : ℕ) (st' : SimState), runSteps dt p0 k st0 = some st' →
      st'.sol.bodies.length = st0.sol.bodies.length ∧
      st'.sol.bodies.map velMassProj = st0.sol.bodies.map velMassProj ∧
      (1 ≤ k → velParts (st'.sol.get_integration_results 0) = p0) ∧
      (2 ≤ k → velParts (st'.sol.get_integration_results 1) = p0) := by
  intro k
  induction k with
  | zero =>
    intro st' h
    have hst := Option.some.inj h
    subst hst
    exact ⟨rfl, rfl, by omega, by omega⟩
  | succ k ih =>
    intro st' h
    rw [runSteps_succ_eq] at h
    cases hmid : runSteps dt p0 k st0 with
    | none => rw [hmid] at h; exact absurd h (by simp)
    | some stm =>
      rw [hmid] at h
      have hstep : verletStep dt p0 k stm = some st' := h
      obtain ⟨hn, hm, hw, hoth⟩ := ih stm hmid
      have hpm : p0.length = stm.sol.bodies.length := by rw [hn]; exact hp
      obtain ⟨hn', hm', hwv, hoth'⟩ := verletStep_effects dt p0 k stm st' hpm hstep
      refine ⟨by rw [hn', hn], by rw [hm', hm], ?_, ?_⟩
      · intro _
        by_cases h0 : writtenSlot k = 0
        · rw [← h0]; exact hwv
        · rw [hoth' 0 (fun hh => h0 hh.symm)]
          apply hw
          rcases Nat.eq_zero_or_pos k with hk0 | hk1
          · exact absurd (by rw [hk0]; rfl) h0
          · exact hk1
      · intro h2k
        by_cases h1 : writtenSlot k = 1
        · rw [← h1]; exact hwv
        · rw [hoth' 1 (fun hh => h1 hh.symm)]
          apply hoth
          have hne1 : ¬ k = 1 := fun hk1 => h1 (by rw [hk1]; rfl)
          omega

/-- C7: once the run has performed at least one step, the velocity columns of
history slot 0 (and, from two steps on, slot 1) hold exactly the initial
velocity sample `p0 = get_velocities()` taken before the loop, and no step
changes any body's velocity state, so both the batched velocity read and every
body's kinetic energy are unchanged for the entire run. -/
theorem velocity_constant_for_run (dt : ℚ) (st0 : SimState) (k : ℕ) (st' : SimState)
    (hk : 1 ≤ k)
    (h : runSteps dt st0.sol.get_velocities k st0 = some st') :
    st'.sol.get_velocities = st0.sol.get_velocities ∧
    st'.sol.bodies.map Body.ke = st0.sol.bodies.map Body.ke ∧
    velParts (st'.sol.get_integration_results 0) = st0.sol.get_velocities ∧
    (2 ≤ k → velParts (st'.sol.get_integration_results 1) = st0.sol.get_velocities) := by
  obtain ⟨hn, hm, hw, hoth⟩ :=
    runSteps_effects dt st0.sol.get_velocities st0 (System.length_get_velocities _) k st' h
  have hvel : ∀ l : List Body,
      l.map Body.get_velocity =
        (l.map velMassProj).map (fun q => ⟨q.1, q.2.1, q.2.2.1⟩) := by
    intro l
    rw [List.map_map]
    rfl
  have hke : ∀ l : List Body,
      l.map Body.ke =
        (l.map velMassProj).map
          (fun q => 1 / 2 * q.2.2.2 * (q.1 ^ 2 + q.2.1 ^ 2 + q.2.2.1 ^ 2)) := by
    intro l
    rw [List.map_map]
    rfl
  refine ⟨?_, ?_, hw hk, hoth⟩
  · show st'.sol.bodies.map Body.get_velocity = st0.sol.bodies.map Body.get_velocity
    rw [hvel, hvel, hm]
  · rw [hke, hke, hm]

/-- Witness for `verlet_step_recurrence`: loop iteration 2 on the one-body
state `stW6` with `dt = 1`. -/
theorem verlet_step_recurrence_witness :
    (2 : ℕ) ≤ 2 ∧ verletStep 1 [(⟨0, 0, 0⟩ : Vec3)] 2 stW6 = some stW6' ∧
    (stW6.tra.set_trajectory_position (qplusOf 1 stW6 2) = some stW6'.tra ∧
     stW6'.sol = (stW6.sol.set_integration_results (olderIdx 2) (qplusOf 1 stW6 2)
       [(⟨0, 0, 0⟩ : Vec3)]).set_positions (qplusOf 1 stW6 2)) := by
  have he : verletStep 1 [(⟨0, 0, 0⟩ : Vec3)] 2 stW6 = some stW6' := by
    norm_num [verletStep, stW6, stW6', bW6, Body.init, System.get_accelerations,
      System.resforce, System.get_integration_results, System.set_integration_results,
      System.set_positions, System.get_positions, System.get_velocities, Body.get_position,
      Body.get_velocity, Body.compute_acceleration, Body.set_position,
      Body.set_integration_result, Body.get_integration_result, force, Trajectory.init,
      Trajectory.set_trajectory_position, Trajectory.setRows, Trajectory.setRow, posParts,
      velParts, ladd, lsub, lsmul, List.zip, List.set, Vec3.mk.injEq, Prod.mk.injEq]
  exact ⟨le_refl 2, he, verlet_step_recurrence 1 [⟨0, 0, 0⟩] 2 stW6 stW6' (le_refl 2) he⟩

/-- Witness for `velocity_constant_for_run`: two loop iterations on the one-body
state `stW7` (initial velocity `(2,0,0)`) with `dt = 1`. -/
theorem velocity_constant_for_run_witness :
    (1 : ℕ) ≤ 2 ∧ runSteps 1 stW7.sol.get_velocities 2 stW7 = some stW7' ∧
    (stW7'.sol.get_velocities = stW7.sol.get_velocities ∧
     stW7'.sol.bodies.map Body.ke = stW7.sol.bodies.map Body.ke ∧
     velParts (stW7'.sol.get_integration_results 0) = stW7.sol.get_velocities ∧
     ((2 : ℕ) ≤ 2 → velParts (stW7'.sol.get_integration_results 1) =
       stW7.sol.get_velocities)) := by
  have e0 : verletStep 1 stW7.sol.get_velocities 0 stW7 = some stW7m := by
    norm_num [verletStep, stW7, stW7m, bW7, Body.init, System.get_accelerations,
      System.resforce, System.get_integration_results, System.set_integration_results,
      System.set_positions, System.get_positions, System.get_velocities, Body.get_position,
      Body.get_velocity, Body.compute_acceleration, Body.set_position,
      Body.set_integration_result, Body.get_integration_result, force, Trajectory.init,
      Trajectory.set_trajectory_position, Trajectory.setRows, Trajectory.setRow, posParts,
      velParts, ladd, lsub, lsmul, List.zip, List.set, Vec3.mk.injEq, Prod.mk.injEq]
    rfl
  have e1 : verletStep 1 stW7.sol.get_velocities 1 stW7m = some stW7' := by
    norm_num [verletStep, stW7, stW7m, stW7', bW7, Body.init, System.get_accelerations,
      System.resforce, System.get_integration_results, System.set_integration_results,
      System.set_positions, System.get_positions, System.get_velocities, Body.get_position,
      Body.get_velocity, Body.compute_acceleration, Body.set_position,
      Body.set_integration_result, Body.get_integration_result, force, Trajectory.init,
      Trajectory.set_trajectory_position, Trajectory.setRows, Trajectory.setRow, posParts,
      velParts, ladd, lsub, lsmul, List.zip, List.set, Vec3.mk.injEq, Prod.mk.injEq]
  have he : runSteps 1 stW7.sol.get_velocities 2 stW7 = some stW7' := by
    show ((runSteps 1 stW7.sol.get_velocities 1 stW7).bind
      (verletStep 1 stW7.sol.get_velocities 1)) = some stW7'
    rw [show runSteps 1 stW7.sol.get_velocities 1 stW7 = some stW7m from by
      show ((runSteps 1 stW7.sol.get_velocities 0 stW7).bind
        (verletStep 1 stW7.sol.get_velocities 0)) = some stW7m
      rw [runSteps_zero_eq]
      exact e0]
    exact e1
  exact ⟨by norm_num, he, velocity_constant_for_run 1 stW7 2 stW7' (by norm_num) he⟩

/-- C10 counterexample: a single body with nonzero initial velocity `(1,0,0)`
moves: after loop iterations 0 and 1 (with `dt = 1`) its position is `(1,0,0)`,
not the initial `(0,0,0)` — the claim's "position is unchanged after any number
of steps" fails for a lone body with nonzero velocity. -/
theorem single_body_position_drifts :
    runSteps 1 stC10.sol.get_velocities 2 stC10 = some stC10' ∧
    stC10'.sol.get_positions = [⟨1, 0, 0⟩] ∧
    stC10.sol.get_positions = [⟨0, 0, 0⟩] ∧
    ([(⟨1, 0, 0⟩ : Vec3)] ≠ [(⟨0, 0, 0⟩ : Vec3)]) := by
  have e0 : verletStep 1 stC10.sol.get_velocities 0 stC10 = some stC10m := by
    norm_num [verletStep, stC10, stC10m, bC10, Body.init, System.get_accelerations,
      System.resforce, System.get_integration_results, System.set_integration_results,
      System.set_positions, System.get_positions, System.get_velocities, Body.get_position,
      Body.get_velocity, Body.compute_acceleration, Body.set_position,
      Body.set_integration_result, Body.get_integration_result, force, Trajectory.init,
      Trajectory.set_trajectory_position, Trajectory.setRows, Trajectory.setRow, posParts,
      velParts, ladd, lsub, lsmul, List.zip, List.set, Vec3.mk.injEq, Prod.mk.injEq]
    rfl
  have e1 : verletStep 1 stC10.sol.get_velocities 1 stC10m = some stC10' := by
    norm_num [verletStep, stC10, stC10m, stC10', bC10, Body.init, System.get_accelerations,
      System.resforce, System.get_integration_results, System.set_integration_results,
      System.set_positions, System.get_positions, System.get_velocities, Body.get_position,
      Body.get_velocity, Body.compute_acceleration, Body.set_position,
      Body.set_integration_result, Body.get_integration_result, force, Trajectory.init,
      Trajectory.set_trajectory_position, Trajectory.setRows, Trajectory.setRow, posParts,
      velParts, ladd, lsub, lsmul, List.zip, List.set, Vec3.mk.injEq, Prod.mk.injEq]
  refine ⟨?_, ?_, ?_, ?_⟩
  · show ((runSteps 1 stC10.sol.get_velocities 1 stC10).bind
      (verletStep 1 stC10.sol.get_velocities 1)) = some stC10'
    rw [show runSteps 1 stC10.sol.get_velocities 1 stC10 = some stC10m from by
      show ((runSteps 1 stC10.sol.get_velocities 0 stC10).bind
        (verletStep 1 stC10.sol.get_velocities 0)) = some stC10m
      rw [runSteps_zero_eq]
      exact e0]
    exact e1
  · norm_num [stC10', bC10, Body.init, System.get_positions, Body.get_position,
      Vec3.mk.injEq]
  · norm_num [stC10, bC10, Body.init, System.get_positions, Body.get_position,
      Vec3.mk.injEq]
  · norm_num [Vec3.mk.injEq]

theorem single_resforce (sys : System) (b : Body) (hsys : sys.bodies = [b]) :
    sys.resforce b = 0 := by
  unfold System.resforce
  rw [hsys]
  simp [force_self]

theorem single_accels (sys : System) (b : Body) (hsys : sys.bodies = [b]) :
    sys.get_accelerations = [0] := by
  unfold System.get_accelerations
  rw [hsys, List.map_cons, List.map_nil, single_resforce sys b hsys]
  simp [Body.compute_acceleration]

theorem runSteps_single_fixed (dt : ℚ) (b : Body) (hv : b.get_velocity = 0) :
    ∀ (k : ℕ) (tra : Trajectory) (st' : SimState),
      runSteps dt (System.get_velocities ⟨[b]⟩) k ⟨⟨[b]⟩, tra⟩ = some st' →
      ∃ b', st'.sol.bodies = [b'] ∧
        b'.get_position = b.get_position ∧
        (1 ≤ k → (b'.get_integration_result 0).1 = b.get_position) ∧
        (2 ≤ k → (b'.get_integration_result 1).1 = b.get_position) := by
  have hp0 : System.get_velocities ⟨[b]⟩ = [(0 : Vec3)] := by
    unfold System.get_velocities
    rw [List.map_cons, List.map_nil, hv]
  intro k
  induction k with
  | zero =>
    intro tra st' h
    have hst := Option.some.inj h
    subst hst
    exact ⟨b, rfl, rfl, by omega, by omega⟩
  | succ k ih =>
    intro tra st' h
    rw [runSteps_succ_eq] at h
    cases hmid : runSteps dt (System.get_velocities ⟨[b]⟩) k ⟨⟨[b]⟩, tra⟩ with
    | none => rw [hmid] at h; exact absurd h (by simp)
    | some stm =>
      rw [hmid] at h
      have hstep : verletStep dt (System.get_velocities ⟨[b]⟩) k stm = some st' := h
      obtain ⟨c, hc, hcp, hs0, hs1⟩ := ih tra stm hmid
      have hposs : stm.sol.get_positions = [c.get_position] := by
        unfold System.get_positions
        rw [hc, List.map_cons, List.map_nil]
      have hgir : ∀ s : Fin 2, stm.sol.get_integration_results s =
          [c.get_integration_result s] := by
        intro s
        unfold System.get_integration_results
        rw [hc, List.map_cons, List.map_nil]
      have hacc : stm.sol.get_accelerations = [0] := single_accels stm.sol c hc
      rcases Nat.lt_or_ge k 2 with hk2 | hk2
      · rcases Nat.lt_or_ge k 1 with hk1 | hk1
        · have hk0 : k = 0 := by omega
          subst hk0
          obtain ⟨_, hsol⟩ := verletStep_zero dt _ stm st' hstep
          refine ⟨c.set_integration_result 0 (c.get_position, 0), ?_, ?_, ?_, ?_⟩
          · rw [hsol]
            unfold System.set_integration_results
            rw [hc, hposs, hp0]
            rfl
          · rw [Body.get_position_set_integration_result]
            exact hcp
          · intro _
            rw [Body.get_set_integration_result_same]
            exact hcp
          · intro hcon
            omega
        · have hk1' : k = 1 := by omega
          subst hk1'
          obtain ⟨_, hsol⟩ := verletStep_one dt _ stm st' hstep
          have hq1 : q1Of dt (System.get_velocities ⟨[b]⟩) stm = [b.get_position] := by
            unfold q1Of
            rw [hgir 0, hp0, hacc]
            simp [posParts, ladd, lsmul, hs0 (by omega)]
          refine ⟨(c.set_integration_result 1 (b.get_position, 0)).set_position
            b.get_position.x b.get_position.y b.get_position.z, ?_, ?_, ?_, ?_⟩
          · rw [hsol, hq1]
            unfold System.set_positions System.set_integration_results
            rw [hc, hp0]
            rfl
          · rfl
          · intro _
            rw [Body.get_integration_result_set_position,
              Body.get_set_integration_result_other c 1 0 _ (by decide)]
            exact hs0 (by omega)
          · intro _
            rw [Body.get_integration_result_set_position,
              Body.get_set_integration_result_same]
      · obtain ⟨_, hsol⟩ := verletStep_ge_two dt _ k stm st' hk2 hstep
        have hboth : ∀ s : Fin 2, (c.get_integration_result s).1 = b.get_position := by
          intro s
          fin_cases s
          · exact hs0 (by omega)
          · exact hs1 hk2
        have hqp : qplusOf dt stm k = [b.get_position] := by
          unfold qplusOf
          rw [hgir, hgir, hacc]
          simp [posParts, ladd, lsub, lsmul, hboth, Vec3.mk.injEq]
          have htwo : ∀ v : Vec3,
              (⟨2 * v.x - v.x, 2 * v.y - v.y, 2 * v.z - v.z⟩ : Vec3) = v := by
            intro v
            obtain ⟨vx, vy, vz⟩ := v
            simp only [Vec3.mk.injEq]
            refine ⟨?_, ?_, ?_⟩ <;> ring
          exact htwo _
        refine ⟨(c.set_integration_result (olderIdx k) (b.get_position, 0)).set_position
          b.get_position.x b.get_position.y b.get_position.z, ?_, ?_, ?_, ?_⟩
        · rw [hsol, hqp]
          unfold System.set_positions System.set_integration_results
          rw [hc, hp0]
          rfl
        · rfl
        · intro _
          rw [Body.get_integration_result_set_position]
          by_cases holder : olderIdx k = 0
          · rw [← holder, Body.get_set_integration_result_same]
          · rw [Body.get_set_integration_result_other c _ 0 _ (fun hh => holder hh.symm)]
            exact hs0 (by omega)
        · intro _
          rw [Body.get_integration_result_set_position]
          by_cases holder : olderIdx k = 1
          · rw [← holder, Body.get_set_integration_result_same]
          · rw [Body.get_set_integration_result_other c _ 1 _ (fun hh => holder hh.symm)]
            exact hs1 hk2

/-- C10 amended: in a one-body system the resultant force and acceleration are
exactly zero at every step (any single-body system computes a zero force row,
so this holds at each intermediate state of the run); the body's position is
unchanged after any number of steps provided its initial velocity is zero —
with a nonzero initial velocity the position drifts by `v0·dt` per step
(see the counterexample). -/
theorem single_body_isolation_at_rest (b : Body) (tra : Trajectory) (dt : ℚ) (k : ℕ)
    (st' : SimState) (hv : b.get_velocity = 0)
    (h : runSteps dt (System.get_velocities ⟨[b]⟩) k ⟨⟨[b]⟩, tra⟩ = some st') :
    (∀ c : Body, System.resforce ⟨[c]⟩ c = 0 ∧ System.get_accelerations ⟨[c]⟩ = [0]) ∧
    st'.sol.get_positions = [b.get_position] := by
  obtain ⟨b', hb', hbpos, _, _⟩ := runSteps_single_fixed dt b hv k tra st' h
  refine ⟨fun c => ⟨single_resforce ⟨[c]⟩ c rfl, single_accels ⟨[c]⟩ c rfl⟩, ?_⟩
  unfold System.get_positions
  rw [hb', List.map_cons, List.map_nil, hbpos]

/-- Witness for `single_body_isolation_at_rest`: three loop iterations on the
one-body state `stW10` (body at rest at `(5,0,0)`) with `dt = 1`. -/
theorem single_body_isolation_at_rest_witness :
    bW10.get_velocity = 0 ∧
    runSteps 1 (System.get_velocities ⟨[bW10]⟩) 3 ⟨⟨[bW10]⟩, Trajectory.init 1 3⟩ =
      some stW10' ∧
    ((∀ c : Body, System.resforce ⟨[c]⟩ c = 0 ∧ System.get_accelerations ⟨[c]⟩ = [0]) ∧
     stW10'.sol.get_positions = [bW10.get_position]) := by
  have hv : bW10.get_velocity = 0 := by
    norm_num [bW10, Body.init, Body.get_velocity]
  have e0 : verletStep 1 (System.get_velocities ⟨[bW10]⟩) 0 stW10 = some stW10m1 := by
    norm_num [verletStep, stW10, stW10m1, bW10, Body.init, System.get_accelerations,
      System.resforce, System.get_integration_results, System.set_integration_results,
      System.set_positions, System.get_positions, System.get_velocities, Body.get_position,
      Body.get_velocity, Body.compute_acceleration, Body.set_position,
      Body.set_integration_result, Body.get_integration_result, force, Trajectory.init,
      Trajectory.set_trajectory_position, Trajectory.setRows, Trajectory.setRow, posParts,
      velParts, ladd, lsub, lsmul, List.zip, List.set, Vec3.mk.injEq, Prod.mk.injEq]
    rfl
  have e1 : verletStep 1 (System.get_velocities ⟨[bW10]⟩) 1 stW10m1 = some stW10m2 := by
    norm_num [verletStep, stW10, stW10m1, stW10m2, bW10, Body.init,
      System.get_accelerations, System.resforce, System.get_integration_results,
      System.set_integration_results, System.set_positions, System.get_positions,
      System.get_velocities, Body.get_position, Body.get_velocity,
      Body.compute_acceleration, Body.set_position, Body.set_integration_result,
      Body.get_integration_result, force, Trajectory.init,
      Trajectory.set_trajectory_position, Trajectory.setRows, Trajectory.setRow, posParts,
      velParts, ladd, lsub, lsmul, List.zip, List.set, Vec3.mk.injEq, Prod.mk.injEq]
  have e2 : verletStep 1 (System.get_velocities ⟨[bW10]⟩) 2 stW10m2 = some stW10' := by
    norm_num [verletStep, stW10, stW10m2, stW10', bW10, Body.init,
      System.get_accelerations, System.resforce, System.get_integration_results,
      System.set_integration_results, System.set_positions, System.get_positions,
      System.get_velocities, Body.get_position, Body.get_velocity,
      Body.compute_acceleration, Body.set_position, Body.set_integration_result,
      Body.get_integration_result, force, Trajectory.init,
      Trajectory.set_trajectory_position, Trajectory.setRows, Trajectory.setRow, posParts,
      velParts, ladd, lsub, lsmul, List.zip, List.set, Vec3.mk.injEq, Prod.mk.injEq]
  have he : runSteps 1 (System.get_velocities ⟨[bW10]⟩) 3 ⟨⟨[bW10]⟩, Trajectory.init 1 3⟩ =
      some stW10' := by
    show ((runSteps 1 (System.get_velocities ⟨[bW10]⟩) 2 stW10).bind
      (verletStep 1 (System.get_velocities ⟨[bW10]⟩) 2)) = some stW10'
    rw [show runSteps 1 (System.get_velocities ⟨[bW10]⟩) 2 stW10 = some stW10m2 from by
      show ((runSteps 1 (System.get_velocities ⟨[bW10]⟩) 1 stW10).bind
        (verletStep 1 (System.get_velocities ⟨[bW10]⟩) 1)) = some stW10m2
      rw [show runSteps 1 (System.get_velocities ⟨[bW10]⟩) 1 stW10 = some stW10m1 from by
        show ((runSteps 1 (System.get_velocities ⟨[bW10]⟩) 0 stW10).bind
          (verletStep 1 (System.get_velocities ⟨[bW10]⟩) 0)) = some stW10m1
        rw [runSteps_zero_eq]
        exact e0]
      exact e1]
    exact e2
  exact ⟨hv, he,
    single_body_isolation_at_rest bW10 (Trajectory.init 1 3) 1 3 stW10' hv he⟩
